import Mathlib

/-!
Shallow embedding of the VoiceText realtime audio pipeline.

Sources embedded here:
* `src/utils/audio.ts` — PCM encoding (`createPcmBlob`), base64 transport
  encoding (`arrayBufferToBase64` / `base64ToArrayBuffer`, whose `btoa` /
  `atob` browser built-ins are modelled as standard base64 over byte lists),
  inbound decoding (`decodeAudioData`), and the `RecorderProcessor`
  resampling worklet (`AUDIO_WORKLET_CODE`).
* `src/App.tsx` — playback scheduling (the `onmessage` audio path),
  `stopSession` teardown, `onMessageReceived` transcript accumulation, and
  the `onerror` / `onopen` retry logic.

Conventions: JS numbers carrying audio samples and clock times are modelled
as exact rationals (`ℚ`); byte buffers are `List Nat` with entries `< 256`;
strings of base64 characters are `List Nat` of ASCII codes.  Fallible
operations return `Except`.
-/

namespace VoiceText

/-! ### base64 (model of the browser `btoa` / `atob` built-ins) -/

/-- Standard base64 alphabet: a sextet value `0..63` to its ASCII code
(`A-Z`, `a-z`, `0-9`, `+`, `/`). -/
def sextetToChar (s : Nat) : Nat :=
  if s < 26 then 65 + s
  else if s < 52 then 97 + (s - 26)
  else if s < 62 then 48 + (s - 52)
  else if s = 62 then 43
  else 47

/-- Inverse of the base64 alphabet: ASCII code back to the sextet value. -/
def charToSextet (c : Nat) : Nat :=
  if 65 ≤ c ∧ c ≤ 90 then c - 65
  else if 97 ≤ c ∧ c ≤ 122 then c - 97 + 26
  else if 48 ≤ c ∧ c ≤ 57 then c - 48 + 52
  else if c = 43 then 62
  else 63

/-- Model of the browser `btoa`: bytes to base64 character codes, with `=`
(ASCII 61) padding for a final group of one or two bytes. -/
def btoa : List Nat → List Nat
  | [] => []
  | [a] => [sextetToChar (a / 4), sextetToChar (a % 4 * 16), 61, 61]
  | [a, b] =>
      [sextetToChar (a / 4), sextetToChar (a % 4 * 16 + b / 16),
       sextetToChar (b % 16 * 4), 61]
  | a :: b :: c :: rest =>
      sextetToChar (a / 4) :: sextetToChar (a % 4 * 16 + b / 16) ::
      sextetToChar (b % 16 * 4 + c / 64) :: sextetToChar (c % 64) :: btoa rest

/-- Model of the browser `atob`: base64 character codes back to bytes,
honouring `=` padding in the final quantum. -/
def atob : List Nat → List Nat
  | c1 :: c2 :: c3 :: c4 :: rest =>
      if c3 = 61 then
        [charToSextet c1 * 4 + charToSextet c2 / 16]
      else if c4 = 61 then
        [charToSextet c1 * 4 + charToSextet c2 / 16,
         charToSextet c2 % 16 * 16 + charToSextet c3 / 4]
      else
        (charToSextet c1 * 4 + charToSextet c2 / 16) ::
        (charToSextet c2 % 16 * 16 + charToSextet c3 / 4) ::
        (charToSextet c3 % 4 * 64 + charToSextet c4) :: atob rest
  | _ => []

/-- `src/utils/audio.ts` `arrayBufferToBase64`: reads the buffer's bytes into
a binary string and applies `btoa`; on byte lists this is `btoa` itself. -/
def arrayBufferToBase64 (buffer : List Nat) : List Nat := btoa buffer

/-- `src/utils/audio.ts` `base64ToArrayBuffer`: `atob` then char codes back
into a byte buffer; on byte lists this is `atob` itself. -/
def base64ToArrayBuffer (base64 : List Nat) : List Nat := atob base64

/-! ### PCM encode (`createPcmBlob`) and decode (`decodeAudioData`) -/

/-- JS `ToInteger`-style truncation toward zero of a rational, as performed
when a JS number is stored into an `Int16Array` element. -/
def jsTrunc (q : ℚ) : ℤ := if q < 0 then -⌊-q⌋ else ⌊q⌋

/-- Wrap an integer into the signed 16-bit range, as `Int16Array` element
assignment does (modulo `2^16`, reinterpreted as signed). -/
def int16Wrap (v : ℤ) : ℤ := (v + 32768) % 65536 - 32768

/-- The scaled integer produced for one sample by `createPcmBlob` before the
`Int16Array` store: clamp to `[-1, 1]`, then scale negatives by `0x8000`
and non-negatives by `0x7FFF`, truncating toward zero. -/
def pcmEncodeRaw (x : ℚ) : ℤ :=
  let s := max (-1) (min 1 x)
  if s < 0 then jsTrunc (s * 32768) else jsTrunc (s * 32767)

/-- One sample of `createPcmBlob`'s int16 conversion, including the
`Int16Array` wrap-around semantics of the store. -/
def pcmEncodeSample (x : ℚ) : ℤ := int16Wrap (pcmEncodeRaw x)

/-- One sample of `decodeAudioData`'s int16-to-float conversion:
`dataInt16[i] / 32768.0`. -/
def pcmDecodeSample (v : ℤ) : ℚ := (v : ℚ) / 32768

/-- Little-endian byte serialization of one int16 element, as laid out in the
`Int16Array.buffer` that `createPcmBlob` hands to `arrayBufferToBase64`. -/
def int16ToLEBytes (v : ℤ) : List Nat :=
  let u := (v % 65536).toNat
  [u % 256, u / 256]

/-- The underlying bytes of the `Int16Array` built by `createPcmBlob` from a
float sample block. -/
def pcmBytes (data : List ℚ) : List Nat :=
  List.flatten ((data.map pcmEncodeSample).map int16ToLEBytes)

/-- The `Blob` structure returned by `createPcmBlob`. -/
structure GenaiBlob where
  data : List Nat
  mimeType : String
  deriving DecidableEq

/-- `src/utils/audio.ts` `createPcmBlob`: clamp/scale each float sample to
int16, base64-encode the buffer, and tag it with the PCM mime type. -/
def createPcmBlob (data : List ℚ) : GenaiBlob :=
  { data := arrayBufferToBase64 (pcmBytes data)
    mimeType := "audio/pcm;rate=16000" }

/-- Reinterpret a byte list as little-endian signed 16-bit samples (the view
an `Int16Array` provides; a trailing odd byte cannot occur on the success
path because construction is guarded by `newInt16Array`). -/
def toInt16List : List Nat → List ℤ
  | b0 :: b1 :: rest =>
      (let u := b0 + 256 * b1
       if u < 32768 then (u : ℤ) else (u : ℤ) - 65536) :: toInt16List rest
  | _ => []

/-- Model of `new Int16Array(buffer)` over a raw buffer: throws a
`RangeError` unless the byte length is a multiple of 2, otherwise yields the
signed 16-bit view. -/
def newInt16Array (bytes : List Nat) : Except String (List ℤ) :=
  if bytes.length % 2 = 0 then .ok (toInt16List bytes)
  else .error "RangeError: byte length of Int16Array should be a multiple of 2"

/-- `src/utils/audio.ts` `decodeAudioData`: base64-decode the payload, view
it as int16 (rejecting odd byte lengths), and divide each sample by 32768.0.
The surrounding `ctx.createBuffer` / `getChannelData` calls are the external
audio context, modelled as a plain sample list. -/
def decodeAudioData (base64Data : List Nat) : Except String (List ℚ) :=
  match newInt16Array (base64ToArrayBuffer base64Data) with
  | .ok dataInt16 => .ok (dataInt16.map pcmDecodeSample)
  | .error e => .error e

/-! ### `RecorderProcessor` (the resampling worklet in `AUDIO_WORKLET_CODE`) -/

/-- `this.bufferSize = 2048` in `RecorderProcessor`. -/
def bufferSize : Nat := 2048

/-- `this._targetSampleRate = 16000` in `RecorderProcessor`. -/
def targetSampleRate : Nat := 16000

/-- The accumulation state of `RecorderProcessor`: the partial buffer
(`this.buffer` up to `this.bufferIndex`) and the chunks already posted
through `this.port.postMessage`. -/
structure RecState where
  buffer : List ℚ
  chunks : List (List ℚ)
  deriving DecidableEq

/-- `this.buffer[this.bufferIndex++] = channelData[idx]` followed by the
flush-when-full check (`if (this.bufferIndex >= this.bufferSize) this.flush()`). -/
def pushSample (st : RecState) (samp : ℚ) : RecState :=
  if bufferSize ≤ (st.buffer ++ [samp]).length then
    { buffer := [], chunks := st.chunks ++ [st.buffer ++ [samp]] }
  else { st with buffer := st.buffer ++ [samp] }

/-- The loop `for (let i = 0; i < L; i += ratio)` of
`RecorderProcessor.process`, with `ratio = R / 16000` carried exactly: at
step `k` the index is `i = k·R/16000`, the loop runs while `i < L`
(`k·R < L·16000`), and `idx = ⌊i⌋ = k·R / 16000` is consumed when
`idx < L`.  `fuel` bounds the iteration count; `L` iterations suffice
whenever `R ≥ 16000` (downsampling), which is the regime the worklet runs in
and the only one the theorems assume. -/
def processLoop (R L : Nat) (get : Nat → ℚ) : Nat → Nat → RecState → RecState
  | 0, _, st => st
  | fuel + 1, k, st =>
    if k * R < L * targetSampleRate then
      let idx := k * R / targetSampleRate
      if idx < L then processLoop R L get fuel (k + 1) (pushSample st (get idx))
      else processLoop R L get fuel (k + 1) st
    else st

/-- `RecorderProcessor.process` on one input block `channelData` captured at
device rate `R`. -/
def process (R : Nat) (block : List ℚ) (st : RecState) : RecState :=
  processLoop R block.length (fun i => block.getD i 0) block.length 0 st

/-- Total samples retained by the processor state: samples already emitted
in chunks plus samples held in the partial accumulation buffer. -/
def totalSamples (st : RecState) : Nat :=
  (st.chunks.map List.length).sum + st.buffer.length

/-! ### App.tsx: data model -/

/-- `ConnectionStatus` from `src/types.ts`. -/
inductive ConnStatus where
  | Disconnected
  | Connecting
  | Connected
  | Error
  deriving DecidableEq

/-- The `role` field of a transcript item. -/
inductive Role where
  | user
  | model
  deriving DecidableEq

/-- `TranscriptItem` from `src/types.ts` (the optional `image` field is only
set by the external image-generation path).  Timestamps and the `Date.now()`
component of ids are carried as an abstract clock reading `now : ℕ`. -/
structure TranscriptItem where
  id : String
  role : Role
  text : String
  image : Option String := none
  isFinal : Bool
  timestamp : Nat
  deriving DecidableEq

/-! ### App.tsx: playback scheduler -/

/-- The playback-side state of `App.tsx`: `audioSourcesRef` (each live
`AudioBufferSourceNode` carries a `stopped` flag, `true` once `stop()` has
run) and `nextStartTimeRef`. -/
structure Scheduler where
  sources : List Bool
  nextStartTime : ℚ
  deriving DecidableEq

/-- `source.stop()`: throws an `InvalidStateError` when the node was already
stopped, otherwise marks it stopped. -/
def stopSource (stopped : Bool) : Except String Bool :=
  if stopped then .error "InvalidStateError" else .ok true

/-- `try { source.stop(); } catch (e) {}` applied to every live source: stop
errors on already-stopped handles are swallowed. -/
def stopAllSwallow (sources : List Bool) : List Bool :=
  sources.map fun s =>
    match stopSource s with
    | .ok b => b
    | .error _ => s

/-- `audioSourcesRef.current.clear()`. -/
def clearSources (_ : List Bool) : List Bool := []

/-- The playback flush performed both by `stopSession` (step 3) and by the
`interrupted` handler of `onMessageReceived`: stop every live source
(swallowing errors), clear the set, and set `nextStartTimeRef.current = 0`. -/
def flushPlayback (st : Scheduler) : Scheduler :=
  { sources := clearSources (stopAllSwallow st.sources)
    nextStartTime := 0 }

/-- Modelled from the spec, for comparison with `flushPlayback`: §4.3 says
`flush()` "resets `nextStartTime` to the clock's current time", so this
variant takes the output clock reading `now` and stores it. -/
def flushPlaybackSpec (now : ℚ) (st : Scheduler) : Scheduler :=
  { sources := clearSources (stopAllSwallow st.sources)
    nextStartTime := now }

/-- One buffer scheduled by the `onmessage` audio path of `startSession`:
`startTime = max(nextStartTimeRef.current, ctx.currentTime)`, the source is
started at `startTime`, `nextStartTimeRef.current = startTime + buffer.duration`,
and the new (playing) source joins the live set.  Returns the updated state
and the bound start time. -/
def scheduleBuffer (st : Scheduler) (now dur : ℚ) : Scheduler × ℚ :=
  let startTime := max st.nextStartTime now
  ({ sources := st.sources ++ [false], nextStartTime := startTime + dur }, startTime)

/-- Run the scheduler over a sequence of inbound buffers, each given as
(clock reading when it is scheduled, buffer duration); returns the final
state and the list of (bound start time, duration) pairs in schedule order. -/
def runSchedule : Scheduler → List (ℚ × ℚ) → Scheduler × List (ℚ × ℚ)
  | st, [] => (st, [])
  | st, (now, dur) :: rest =>
      let p := scheduleBuffer st now dur
      let r := runSchedule p.1 rest
      (r.1, (p.2, dur) :: r.2)

/-- The audio-playback branch of the `onmessage` callback for one message:
if it carries inline audio data, decode it (`decodeAudioData`, 24000 Hz) and
schedule the resulting buffer, whose duration is `frameCount / 24000`;
a rejected decode only hits `.catch(console.error)` and leaves the
scheduler untouched. -/
def handleAudioMessage (st : Scheduler) (now : ℚ) (base64Audio : List Nat) :
    Scheduler :=
  match decodeAudioData base64Audio with
  | .ok samples => (scheduleBuffer st now ((samples.length : ℚ) / 24000)).1
  | .error _ => st

/-- Process a stream of inbound audio messages in delivery order; each
message is (clock reading at arrival, base64 audio payload). -/
def processAudioMessages (st : Scheduler) (msgs : List (ℚ × List Nat)) :
    Scheduler :=
  msgs.foldl (fun s m => handleAudioMessage s m.1 m.2) st

/-! ### App.tsx: application state, teardown, message and error handling -/

/-- JS `String.prototype.trim`: strip leading and trailing whitespace.
(Defined over the character list so that it evaluates by kernel reduction.) -/
def jsTrim (s : String) : String :=
  ⟨((s.data.dropWhile Char.isWhitespace).reverse.dropWhile Char.isWhitespace).reverse⟩

/-- `MAX_RETRIES` in `src/App.tsx`. -/
def MAX_RETRIES : Nat := 3

/-- The mutable state of the `App` component that the embedded operations
touch: session/capture refs, playback state, transcript state, and the
reconnection bookkeeping.  `scheduledRetries` is an event log of the backoff
delays passed to `setTimeout` (instrumentation for the retry-bound claim;
no code reads it back). -/
structure AppState where
  reconnectTimeout : Option Nat
  mediaStreamTracks : Option (List Bool)
  workletConnected : Option Bool
  sourceConnected : Option Bool
  playback : Scheduler
  globalCtxRunning : Option Bool
  session : Option Unit
  transcripts : List TranscriptItem
  currentInput : String
  currentOutput : String
  currentTurnInput : String
  currentTurnOutput : String
  status : ConnStatus
  errorMsg : Option String
  retryCount : Nat
  scheduledRetries : List Nat
  deriving DecidableEq

/-- `stopSession(fullDisconnect)` from `src/App.tsx`: clear the reconnect
timer; stop and drop the media stream; disconnect and drop the worklet and
source nodes; stop all output sources, clear the set and zero
`nextStartTimeRef`; suspend the global context if running; null the session
ref; append any non-empty trimmed pending partial text to the transcript
history (user item first, then model item, both final); clear both partial
buffers; and, when `fullDisconnect`, set status to `Disconnected`. -/
def stopSession (fullDisconnect : Bool) (now : Nat) (st : AppState) : AppState :=
  let pendingInput := jsTrim st.currentTurnInput
  let pendingOutput := jsTrim st.currentTurnOutput
  let savedItems : List TranscriptItem :=
    (if pendingInput ≠ "" then
      [{ id := toString now ++ "-saved-input", role := Role.user,
         text := pendingInput, isFinal := true, timestamp := now }] else []) ++
    (if pendingOutput ≠ "" then
      [{ id := toString now ++ "-saved-output", role := Role.model,
         text := pendingOutput, isFinal := true, timestamp := now }] else [])
  { reconnectTimeout := none
    mediaStreamTracks := none
    workletConnected := none
    sourceConnected := none
    playback := flushPlayback st.playback
    globalCtxRunning :=
      match st.globalCtxRunning with
      | some true => some false
      | other => other
    session := none
    transcripts := st.transcripts ++ savedItems
    currentInput := ""
    currentOutput := ""
    currentTurnInput := ""
    currentTurnOutput := ""
    status := if fullDisconnect then ConnStatus.Disconnected else st.status
    errorMsg := st.errorMsg
    retryCount := st.retryCount
    scheduledRetries := st.scheduledRetries }

/-- The fields of a `LiveServerMessage` consumed by `onMessageReceived`
(`toolCall` dispatch goes to the external image-generation collaborator and
touches none of the state modelled here). -/
structure ServerMessage where
  inputTranscription : Option String
  outputTranscription : Option String
  turnComplete : Bool
  interrupted : Bool
  deriving DecidableEq

/-- `onMessageReceived` from `src/App.tsx`, in source order: append streamed
partial input/output text; on `turnComplete`, for each direction whose
trimmed buffer is non-empty append one finalized turn and clear that
buffer; on `interrupted`, discard the model-side partial buffer and flush
playback. -/
def onMessageReceived (now : Nat) (message : ServerMessage) (st : AppState) :
    AppState :=
  let st :=
    match message.inputTranscription with
    | some t =>
        { st with currentTurnInput := st.currentTurnInput ++ t,
                  currentInput := st.currentTurnInput ++ t }
    | none => st
  let st :=
    match message.outputTranscription with
    | some t =>
        { st with currentTurnOutput := st.currentTurnOutput ++ t,
                  currentOutput := st.currentTurnOutput ++ t }
    | none => st
  let st :=
    if message.turnComplete then
      let finalInput := jsTrim st.currentTurnInput
      let st :=
        if finalInput ≠ "" then
          { st with
            transcripts := st.transcripts ++
              [{ id := toString now ++ "-user", role := Role.user,
                 text := finalInput, isFinal := true, timestamp := now }]
            currentTurnInput := ""
            currentInput := "" }
        else st
      let finalOutput := jsTrim st.currentTurnOutput
      if finalOutput ≠ "" then
        { st with
          transcripts := st.transcripts ++
            [{ id := toString now ++ "-model", role := Role.model,
               text := finalOutput, isFinal := true, timestamp := now }]
          currentTurnOutput := ""
          currentOutput := "" }
      else st
    else st
  if message.interrupted then
    { st with currentTurnOutput := "", currentOutput := "",
              playback := flushPlayback st.playback }
  else st

/-- The `onerror` callback of `startSession`: below `MAX_RETRIES`, move to
`Connecting` with the attempt-counter banner, bump the retry count, run the
partial teardown `stopSession(false)` and schedule a 2000 ms restart; at the
bound, annotate the error message with "(Max retries reached)", move to
`Error`, and run the partial teardown with no restart scheduled. -/
def onErrorHandler (errMessage : String) (now : Nat) (st : AppState) : AppState :=
  if st.retryCount < MAX_RETRIES then
    let nextRetry := st.retryCount + 1
    let st1 := { st with
      status := ConnStatus.Connecting
      errorMsg := some ("Connection lost. Reconnecting (" ++ toString nextRetry ++
        "/" ++ toString MAX_RETRIES ++ ")...")
      retryCount := nextRetry }
    let st2 := stopSession false now st1
    { st2 with reconnectTimeout := some 2000
               scheduledRetries := st2.scheduledRetries ++ [2000] }
  else
    let st1 := { st with
      errorMsg := some (errMessage ++ " (Max retries reached)")
      status := ConnStatus.Error }
    stopSession false now st1

/-- The `onopen` callback of `startSession`: status `Connected`, the session
ref is populated from the resolved connect promise, and the retry counter is
reset to 0. -/
def onOpenHandler (st : AppState) : AppState :=
  { st with status := ConnStatus.Connected
            session := some ()
            retryCount := 0 }

/-! ### Concrete states used by witnesses -/

/-- A connected state with pending partial text "hello" / "world". -/
def c3State : AppState :=
  { reconnectTimeout := none, mediaStreamTracks := some [false],
    workletConnected := some true, sourceConnected := some true,
    playback := { sources := [false], nextStartTime := 3 },
    globalCtxRunning := some true, session := some (), transcripts := [],
    currentInput := "hello", currentOutput := "world",
    currentTurnInput := "hello", currentTurnOutput := "world",
    status := ConnStatus.Connected, errorMsg := none, retryCount := 0,
    scheduledRetries := [] }

/-- A connected state with retry counter 0, used by the C2 witness. -/
def c2State : AppState :=
  { reconnectTimeout := none, mediaStreamTracks := some [false],
    workletConnected := some true, sourceConnected := some true,
    playback := { sources := [], nextStartTime := 0 },
    globalCtxRunning := some true, session := some (), transcripts := [],
    currentInput := "", currentOutput := "",
    currentTurnInput := "", currentTurnOutput := "",
    status := ConnStatus.Connected, errorMsg := none, retryCount := 0,
    scheduledRetries := [] }

/-! ### Helper lemmas -/

theorem trim_empty_str : jsTrim "" = "" := by decide

/-! ### Claims -/

/-- Claim C3: a manual stop appends every non-empty trimmed pending partial
text to the transcript history as finalized turns, user turn before model
turn, and clears both partial buffers; no non-empty trimmed pending text is
lost on teardown. -/
theorem claim_C3_teardown_text_preservation (full : Bool) (now : Nat)
    (st : AppState)
    (hIn : jsTrim st.currentTurnInput ≠ "") (hOut : jsTrim st.currentTurnOutput ≠ "") :
    (stopSession full now st).transcripts =
      st.transcripts ++
        [{ id := toString now ++ "-saved-input", role := Role.user,
           text := jsTrim st.currentTurnInput, isFinal := true, timestamp := now },
         { id := toString now ++ "-saved-output", role := Role.model,
           text := jsTrim st.currentTurnOutput, isFinal := true, timestamp := now }] ∧
    (stopSession full now st).currentTurnInput = "" ∧
    (stopSession full now st).currentTurnOutput = "" := by
  simp [stopSession, hIn, hOut]

/-- Witness for C3 at the concrete state of the spec's example. -/
theorem claim_C3_witness :
    (stopSession true 7 c3State).transcripts =
      [{ id := "7-saved-input", role := Role.user, text := "hello",
         isFinal := true, timestamp := 7 },
       { id := "7-saved-output", role := Role.model, text := "world",
         isFinal := true, timestamp := 7 }] ∧
    (stopSession true 7 c3State).currentTurnInput = "" ∧
    (stopSession true 7 c3State).currentTurnOutput = "" := by
  have h := claim_C3_teardown_text_preservation true 7 c3State
    (by decide) (by decide)
  have e1 : jsTrim "hello" = "hello" := by decide
  have e2 : jsTrim "world" = "world" := by decide
  have e3 : toString (7 : Nat) = "7" := by decide
  simpa [c3State, e1, e2, e3] using h

/-- Claim C8 as stated is false: flushing does not reset the next-start time
to the output clock's current time; the code writes `nextStartTimeRef.current = 0`
regardless of the clock.  At clock reading 5 the code's flush leaves 0 where
the spec's flush would leave 5. -/
theorem claim_C8_counterexample :
    (flushPlayback { sources := [true, false], nextStartTime := 9 }).nextStartTime = 0 ∧
    (flushPlaybackSpec 5 { sources := [true, false], nextStartTime := 9 }).nextStartTime = 5 ∧
    flushPlayback { sources := [true, false], nextStartTime := 9 } ≠
      flushPlaybackSpec 5 { sources := [true, false], nextStartTime := 9 } := by
  decide

/-- Claim C8 (amended): flushing stops every handle in the live set with
stop errors on already-stopped handles swallowed, clears the set, and resets
the next-start time to 0 (not to the clock's current time); flushing twice,
or flushing an empty schedule, produces no error and leaves the same state
as a single flush. -/
theorem claim_C8_flush_idempotent (st : Scheduler) (t : ℚ) :
    flushPlayback (flushPlayback st) = flushPlayback st ∧
    (flushPlayback st).sources = [] ∧
    (flushPlayback st).nextStartTime = 0 ∧
    stopAllSwallow st.sources = st.sources.map (fun _ => true) ∧
    flushPlayback { sources := [], nextStartTime := t } =
      { sources := [], nextStartTime := 0 } := by
  refine ⟨rfl, rfl, rfl, ?_, rfl⟩
  refine List.map_congr_left fun s _ => ?_
  cases s <;> rfl

/-- Claim C9: `stopSession` is idempotent — running the teardown twice in
immediate succession (at any two clock readings) yields the same state as
running it once; in particular the second run appends no transcript items
and re-clears nothing. -/
theorem claim_C9_stopSession_idempotent (full : Bool) (now1 now2 : Nat)
    (st : AppState) :
    stopSession full now2 (stopSession full now1 st) = stopSession full now1 st := by
  cases hg : st.globalCtxRunning with
  | none =>
      cases full <;>
        simp [stopSession, flushPlayback, clearSources, stopAllSwallow,
          trim_empty_str, hg]
  | some b =>
      cases b <;> cases full <;>
        simp [stopSession, flushPlayback, clearSources, stopAllSwallow,
          trim_empty_str, hg]

theorem onErrorHandler_retry (m : String) (now : Nat) (st : AppState)
    (h : st.retryCount < MAX_RETRIES) :
    (onErrorHandler m now st).status = ConnStatus.Connecting ∧
    (onErrorHandler m now st).retryCount = st.retryCount + 1 ∧
    (onErrorHandler m now st).scheduledRetries = st.scheduledRetries ++ [2000] ∧
    (onErrorHandler m now st).reconnectTimeout = some 2000 := by
  simp [onErrorHandler, stopSession, h]

theorem onErrorHandler_exhausted (m : String) (now : Nat) (st : AppState)
    (h : ¬ st.retryCount < MAX_RETRIES) :
    (onErrorHandler m now st).status = ConnStatus.Error ∧
    (onErrorHandler m now st).retryCount = st.retryCount ∧
    (onErrorHandler m now st).scheduledRetries = st.scheduledRetries ∧
    (onErrorHandler m now st).reconnectTimeout = none ∧
    (onErrorHandler m now st).errorMsg = some (m ++ " (Max retries reached)") := by
  simp [onErrorHandler, stopSession, h]

/-- Claim C2: from a freshly connected state (retry counter 0), four
consecutive transport errors with no intervening success move the session to
`Connecting` and schedule a 2000 ms restart exactly three times, bumping the
counter each time; the fourth error moves it to `Error` with the message
annotated "(Max retries reached)", clears the pending restart timer and
schedules nothing further — nor does any later error; `onopen` resets the
counter to 0. -/
theorem claim_C2_retry_bound (m1 m2 m3 m4 : String) (n1 n2 n3 n4 : Nat)
    (st : AppState) (h : st.retryCount = 0) :
    (onErrorHandler m1 n1 st).status = ConnStatus.Connecting ∧
    (onErrorHandler m1 n1 st).retryCount = 1 ∧
    (onErrorHandler m1 n1 st).scheduledRetries = st.scheduledRetries ++ [2000] ∧
    (onErrorHandler m1 n1 st).reconnectTimeout = some 2000 ∧
    (onErrorHandler m2 n2 (onErrorHandler m1 n1 st)).status = ConnStatus.Connecting ∧
    (onErrorHandler m2 n2 (onErrorHandler m1 n1 st)).retryCount = 2 ∧
    (onErrorHandler m2 n2 (onErrorHandler m1 n1 st)).scheduledRetries =
      st.scheduledRetries ++ [2000, 2000] ∧
    (onErrorHandler m2 n2 (onErrorHandler m1 n1 st)).reconnectTimeout = some 2000 ∧
    (onErrorHandler m3 n3 (onErrorHandler m2 n2 (onErrorHandler m1 n1 st))).status =
      ConnStatus.Connecting ∧
    (onErrorHandler m3 n3 (onErrorHandler m2 n2 (onErrorHandler m1 n1 st))).retryCount = 3 ∧
    (onErrorHandler m3 n3 (onErrorHandler m2 n2 (onErrorHandler m1 n1 st))).scheduledRetries =
      st.scheduledRetries ++ [2000, 2000, 2000] ∧
    (onErrorHandler m3 n3 (onErrorHandler m2 n2 (onErrorHandler m1 n1 st))).reconnectTimeout =
      some 2000 ∧
    (onErrorHandler m4 n4 (onErrorHandler m3 n3 (onErrorHandler m2 n2
      (onErrorHandler m1 n1 st)))).status = ConnStatus.Error ∧
    (onErrorHandler m4 n4 (onErrorHandler m3 n3 (onErrorHandler m2 n2
      (onErrorHandler m1 n1 st)))).errorMsg = some (m4 ++ " (Max retries reached)") ∧
    (onErrorHandler m4 n4 (onErrorHandler m3 n3 (onErrorHandler m2 n2
      (onErrorHandler m1 n1 st)))).scheduledRetries =
      st.scheduledRetries ++ [2000, 2000, 2000] ∧
    (onErrorHandler m4 n4 (onErrorHandler m3 n3 (onErrorHandler m2 n2
      (onErrorHandler m1 n1 st)))).reconnectTimeout = none ∧
    (∀ m n, (onErrorHandler m n (onErrorHandler m4 n4 (onErrorHandler m3 n3
      (onErrorHandler m2 n2 (onErrorHandler m1 n1 st))))).scheduledRetries =
      (onErrorHandler m4 n4 (onErrorHandler m3 n3 (onErrorHandler m2 n2
        (onErrorHandler m1 n1 st)))).scheduledRetries) ∧
    (∀ stX : AppState, (onOpenHandler stX).retryCount = 0) := by
  obtain ⟨a1, a2, a3, a4⟩ := onErrorHandler_retry m1 n1 st (by rw [h]; decide)
  rw [h] at a2
  obtain ⟨b1, b2, b3, b4⟩ :=
    onErrorHandler_retry m2 n2 (onErrorHandler m1 n1 st) (by rw [a2]; decide)
  rw [a2] at b2
  obtain ⟨c1, c2, c3, c4⟩ :=
    onErrorHandler_retry m3 n3 (onErrorHandler m2 n2 (onErrorHandler m1 n1 st))
      (by rw [b2]; decide)
  rw [b2] at c2
  obtain ⟨d1, d2, d3, d4, d5⟩ :=
    onErrorHandler_exhausted m4 n4 (onErrorHandler m3 n3 (onErrorHandler m2 n2
      (onErrorHandler m1 n1 st))) (by rw [c2]; decide)
  rw [c2] at d2
  refine ⟨a1, a2, a3, a4, b1, b2, ?_, b4, c1, c2, ?_, c4, d1, d5, ?_, d4, ?_, ?_⟩
  · rw [b3, a3]; simp
  · rw [c3, b3, a3]; simp
  · rw [d3, c3, b3, a3]; simp
  · intro m n
    exact (onErrorHandler_exhausted m n (onErrorHandler m4 n4 (onErrorHandler m3 n3
      (onErrorHandler m2 n2 (onErrorHandler m1 n1 st)))) (by rw [d2]; decide)).2.2.1
  · intro stX
    simp [onOpenHandler]

/-- Witness for C2 at a concrete connected state. -/
theorem claim_C2_witness :
    (onErrorHandler "e1" 1 c2State).status = ConnStatus.Connecting ∧
    (onErrorHandler "e3" 3 (onErrorHandler "e2" 2 (onErrorHandler "e1" 1
      c2State))).scheduledRetries = [2000, 2000, 2000] ∧
    (onErrorHandler "boom" 4 (onErrorHandler "e3" 3 (onErrorHandler "e2" 2
      (onErrorHandler "e1" 1 c2State)))).status = ConnStatus.Error ∧
    (onErrorHandler "boom" 4 (onErrorHandler "e3" 3 (onErrorHandler "e2" 2
      (onErrorHandler "e1" 1 c2State)))).errorMsg =
      some "boom (Max retries reached)" := by
  have h := claim_C2_retry_bound "e1" "e2" "e3" "boom" 1 2 3 4 c2State rfl
  obtain ⟨a1, -, -, -, -, -, -, -, -, -, hc3, -, hd1, hd2, -, -, -, -⟩ := h
  refine ⟨a1, ?_, hd1, ?_⟩
  · simpa [c2State] using hc3
  · simpa using hd2

/-- Claim C4: an interrupt event empties the model-side partial buffer
without committing it to history, leaves the user-side partial buffer
untouched, and flushes playback; a turn-complete event appends exactly one
finalized turn per direction with non-empty trimmed buffer (user first) and
clears that buffer, while a direction whose trimmed buffer is empty appends
nothing. -/
theorem claim_C4_turn_commit_exclusivity (now : Nat) (st : AppState) :
    ((onMessageReceived now ⟨none, none, false, true⟩ st).currentTurnOutput = "" ∧
     (onMessageReceived now ⟨none, none, false, true⟩ st).currentOutput = "" ∧
     (onMessageReceived now ⟨none, none, false, true⟩ st).transcripts = st.transcripts ∧
     (onMessageReceived now ⟨none, none, false, true⟩ st).currentTurnInput =
       st.currentTurnInput ∧
     (onMessageReceived now ⟨none, none, false, true⟩ st).playback.sources = [] ∧
     (onMessageReceived now ⟨none, none, false, true⟩ st).playback.nextStartTime = 0) ∧
    ((onMessageReceived now ⟨none, none, true, false⟩ st).transcripts =
       st.transcripts ++
         (if jsTrim st.currentTurnInput ≠ "" then
           [{ id := toString now ++ "-user", role := Role.user,
              text := jsTrim st.currentTurnInput, isFinal := true,
              timestamp := now }] else []) ++
         (if jsTrim st.currentTurnOutput ≠ "" then
           [{ id := toString now ++ "-model", role := Role.model,
              text := jsTrim st.currentTurnOutput, isFinal := true,
              timestamp := now }] else []) ∧
     (jsTrim st.currentTurnInput ≠ "" →
       (onMessageReceived now ⟨none, none, true, false⟩ st).currentTurnInput = "") ∧
     (jsTrim st.currentTurnOutput ≠ "" →
       (onMessageReceived now ⟨none, none, true, false⟩ st).currentTurnOutput = "")) := by
  constructor
  · simp [onMessageReceived, flushPlayback, clearSources]
  · by_cases hI : jsTrim st.currentTurnInput = "" <;>
      by_cases hO : jsTrim st.currentTurnOutput = "" <;>
      simp [onMessageReceived, hI, hO]

/-- Witness for C4 at a concrete state with pending text on both sides. -/
theorem claim_C4_witness :
    (onMessageReceived 7 ⟨none, none, false, true⟩ c3State).currentTurnOutput = "" ∧
    (onMessageReceived 7 ⟨none, none, false, true⟩ c3State).transcripts = [] ∧
    (onMessageReceived 7 ⟨none, none, false, true⟩ c3State).currentTurnInput = "hello" ∧
    (onMessageReceived 7 ⟨none, none, true, false⟩ c3State).transcripts =
      [{ id := "7-user", role := Role.user, text := "hello",
         isFinal := true, timestamp := 7 },
       { id := "7-model", role := Role.model, text := "world",
         isFinal := true, timestamp := 7 }] ∧
    (onMessageReceived 7 ⟨none, none, true, false⟩ c3State).currentTurnInput = "" := by
  have h := claim_C4_turn_commit_exclusivity 7 c3State
  have e1 : jsTrim "hello" = "hello" := by decide
  have e2 : jsTrim "world" = "world" := by decide
  have e3 : toString (7 : Nat) = "7" := by decide
  obtain ⟨⟨i1, -, i3, i4, -, -⟩, t1, t2, t3⟩ := h
  refine ⟨i1, ?_, ?_, ?_, ?_⟩
  · simpa [c3State] using i3
  · simpa [c3State] using i4
  · rw [show c3State.transcripts = [] from rfl] at t1
    simpa [c3State, e1, e2, e3] using t1
  · apply t2
    show jsTrim "hello" ≠ ""
    decide

/-! ### Scheduler lemmas (C1) -/

theorem scheduleBuffer_snd (st : Scheduler) (now dur : ℚ) :
    (scheduleBuffer st now dur).2 = max st.nextStartTime now := rfl

theorem scheduleBuffer_next (st : Scheduler) (now dur : ℚ) :
    (scheduleBuffer st now dur).1.nextStartTime = max st.nextStartTime now + dur := rfl

theorem runSchedule_cons (st : Scheduler) (now dur : ℚ) (rest : List (ℚ × ℚ)) :
    runSchedule st ((now, dur) :: rest) =
      ((runSchedule (scheduleBuffer st now dur).1 rest).1,
       ((scheduleBuffer st now dur).2, dur) ::
         (runSchedule (scheduleBuffer st now dur).1 rest).2) := rfl

theorem runSchedule_length (evs : List (ℚ × ℚ)) :
    ∀ st, (runSchedule st evs).2.length = evs.length := by
  induction evs with
  | nil => intro st; rfl
  | cons e rest ih =>
      intro st
      obtain ⟨now, dur⟩ := e
      rw [runSchedule_cons]
      simp [ih]

theorem runSchedule_chain (evs : List (ℚ × ℚ)) :
    ∀ st, List.Chain' (fun a b : ℚ × ℚ => a.1 + a.2 ≤ b.1) (runSchedule st evs).2 := by
  induction evs with
  | nil => intro st; simp [runSchedule]
  | cons e rest ih =>
      intro st
      obtain ⟨now, dur⟩ := e
      rw [runSchedule_cons, List.chain'_cons']
      refine ⟨?_, ih _⟩
      intro y hy
      cases rest with
      | nil => simp [runSchedule] at hy
      | cons e2 rest2 =>
          obtain ⟨n2, d2⟩ := e2
          rw [runSchedule_cons] at hy
          simp only [List.head?_cons, Option.mem_def, Option.some.injEq] at hy
          rw [← hy, scheduleBuffer_snd, scheduleBuffer_snd, scheduleBuffer_next]
          exact le_max_left _ _

theorem runSchedule_getD (evs : List (ℚ × ℚ)) :
    ∀ st i, i < evs.length →
      (runSchedule st evs).2.getD i (0, 0) =
        (max (runSchedule st (evs.take i)).1.nextStartTime
          (evs.getD i (0, 0)).1, (evs.getD i (0, 0)).2) := by
  induction evs with
  | nil => intro st i h1; simp at h1
  | cons e rest ih =>
      intro st i h1
      obtain ⟨now, dur⟩ := e
      cases i with
      | zero =>
          rw [runSchedule_cons]
          simp [runSchedule, scheduleBuffer_snd]
      | succ j =>
          rw [runSchedule_cons]
          simp only [List.getD_cons_succ, List.take_succ_cons]
          rw [runSchedule_cons]
          exact ih _ j (by simpa using h1)

theorem runSchedule_advance (evs : List (ℚ × ℚ)) :
    ∀ st i, i < evs.length →
      (runSchedule st (evs.take (i + 1))).1.nextStartTime =
        max (runSchedule st (evs.take i)).1.nextStartTime
          (evs.getD i (0, 0)).1 + (evs.getD i (0, 0)).2 := by
  induction evs with
  | nil => intro st i h1; simp at h1
  | cons e rest ih =>
      intro st i h1
      obtain ⟨now, dur⟩ := e
      cases i with
      | zero =>
          simp only [List.take_succ_cons, List.take_zero, List.getD_cons_zero]
          rw [runSchedule_cons]
          simp [runSchedule, scheduleBuffer_snd, scheduleBuffer_next]
      | succ j =>
          simp only [List.take_succ_cons, List.getD_cons_succ]
          rw [runSchedule_cons, runSchedule_cons]
          exact ih _ j (by simpa using h1)

/-- Claim C1: scheduled inbound buffers never overlap.  Each buffer is bound
to start at `max(nextStartTime, clock now)` at the moment it is scheduled,
`nextStartTime` then advances to that start plus the buffer's duration, each
buffer starts no earlier than the clock reading at its scheduling moment (in
particular the first one starts no earlier than the clock's current time),
and consecutive buffers satisfy `start + duration ≤ next start`. -/
theorem claim_C1_gapless_scheduling (st : Scheduler) (evs : List (ℚ × ℚ)) :
    (runSchedule st evs).2.length = evs.length ∧
    (∀ i, i < evs.length →
      (runSchedule st evs).2.getD i (0, 0) =
        (max (runSchedule st (evs.take i)).1.nextStartTime
          (evs.getD i (0, 0)).1, (evs.getD i (0, 0)).2)) ∧
    (∀ i, i < evs.length →
      (runSchedule st (evs.take (i + 1))).1.nextStartTime =
        max (runSchedule st (evs.take i)).1.nextStartTime
          (evs.getD i (0, 0)).1 + (evs.getD i (0, 0)).2) ∧
    List.Chain' (fun a b : ℚ × ℚ => a.1 + a.2 ≤ b.1) (runSchedule st evs).2 ∧
    (∀ i, i < evs.length →
      (evs.getD i (0, 0)).1 ≤ ((runSchedule st evs).2.getD i (0, 0)).1) := by
  refine ⟨runSchedule_length evs st, fun i h1 => runSchedule_getD evs st i h1,
    fun i h1 => runSchedule_advance evs st i h1, runSchedule_chain evs st,
    fun i h1 => ?_⟩
  rw [runSchedule_getD evs st i h1]
  exact le_max_right _ _

/-- Witness for C1 on a concrete two-buffer schedule. -/
theorem claim_C1_witness :
    (runSchedule { sources := [], nextStartTime := 0 }
      [((0 : ℚ), (1 : ℚ)), (3 / 2, 2)]).2 = [(0, 1), (3 / 2, 2)] ∧
    List.Chain' (fun a b : ℚ × ℚ => a.1 + a.2 ≤ b.1)
      [((0 : ℚ), (1 : ℚ)), (3 / 2, 2)] := by
  have h := claim_C1_gapless_scheduling { sources := [], nextStartTime := 0 }
    [((0 : ℚ), (1 : ℚ)), (3 / 2, 2)]
  have he : (runSchedule { sources := [], nextStartTime := 0 }
      [((0 : ℚ), (1 : ℚ)), (3 / 2, 2)]).2 = [(0, 1), (3 / 2, 2)] := by
    rw [runSchedule_cons, runSchedule_cons]
    simp only [runSchedule, scheduleBuffer_snd, scheduleBuffer_next]
    norm_num [max_def]
  exact ⟨he, he ▸ h.2.2.2.1⟩

/-! ### Decode error isolation (C7) -/

theorem handleAudioMessage_error (st : Scheduler) (t : ℚ) (bad : List Nat)
    (h : ¬ (base64ToArrayBuffer bad).length % 2 = 0) :
    handleAudioMessage st t bad = st := by
  simp [handleAudioMessage, decodeAudioData, newInt16Array, h]

/-- Claim C7: decoding an inbound frame fails exactly when the decoded byte
length is odd, and a failed decode leaves the playback scheduler exactly as
if the corrupt frame had never arrived: frames after it are still decoded
and scheduled. -/
theorem claim_C7_decode_error_isolation :
    (∀ b64 : List Nat,
      (decodeAudioData b64).isOk = true ↔
        (base64ToArrayBuffer b64).length % 2 = 0) ∧
    (∀ (st : Scheduler) (pre suf : List (ℚ × List Nat)) (t : ℚ) (bad : List Nat),
      ¬ (base64ToArrayBuffer bad).length % 2 = 0 →
      processAudioMessages st (pre ++ (t, bad) :: suf) =
        processAudioMessages st (pre ++ suf)) := by
  constructor
  · intro b64
    by_cases h : (base64ToArrayBuffer b64).length % 2 = 0 <;>
      simp [decodeAudioData, newInt16Array, h, Except.isOk, Except.toBool]
  · intro st pre suf t bad h
    simp only [processAudioMessages, List.foldl_append, List.foldl_cons]
    rw [handleAudioMessage_error _ _ _ h]

/-- Witness for C7: the 1-byte frame "AA==" (odd byte count) is dropped
while the 2-byte frame "AAA=" still decodes. -/
theorem claim_C7_witness :
    processAudioMessages { sources := [], nextStartTime := 0 }
        ([] ++ ((3 : ℚ), [65, 65, 61, 61]) :: [((4 : ℚ), [65, 65, 65, 61])]) =
      processAudioMessages { sources := [], nextStartTime := 0 }
        ([] ++ [((4 : ℚ), [65, 65, 65, 61])]) ∧
    (decodeAudioData [65, 65, 65, 61]).isOk = true := by
  refine ⟨claim_C7_decode_error_isolation.2 _ [] _ 3 _ (by decide), ?_⟩
  exact (claim_C7_decode_error_isolation.1 [65, 65, 65, 61]).2 (by decide)

/-! ### Resampler counting (C5) -/

theorem pushSample_total (st : RecState) (samp : ℚ) :
    totalSamples (pushSample st samp) = totalSamples st + 1 := by
  unfold pushSample totalSamples
  split
  · simp only [List.map_append, List.sum_append, List.map_cons, List.map_nil,
      List.sum_cons, List.sum_nil, List.length_append, List.length_nil,
      List.length_singleton]
    omega
  · simp only [List.length_append, List.length_singleton]
    omega

theorem lt_ceil_iff (R N k : Nat) (hR : 0 < R) :
    k < (N + R - 1) / R ↔ k * R < N := by
  rw [Nat.lt_iff_add_one_le, Nat.le_div_iff_mul_le hR, Nat.succ_mul]
  omega

theorem ceil_le_len (R L : Nat) (hR : targetSampleRate ≤ R) :
    (L * targetSampleRate + R - 1) / R ≤ L := by
  have hR0 : 0 < R := lt_of_lt_of_le (by norm_num [targetSampleRate]) hR
  rw [Nat.div_le_iff_le_mul_add_pred hR0, Nat.mul_comm R L]
  have h := Nat.mul_le_mul_left L hR
  omega

theorem idx_lt_len (R L k : Nat) (h : k * R < L * targetSampleRate) :
    k * R / targetSampleRate < L :=
  (Nat.div_lt_iff_lt_mul (by norm_num [targetSampleRate])).2 h

theorem processLoop_total (R L : Nat) (get : Nat → ℚ) (hR : 0 < R) :
    ∀ fuel k st, totalSamples (processLoop R L get fuel k st) =
      totalSamples st +
        min fuel ((L * targetSampleRate + R - 1) / R - k) := by
  intro fuel
  induction fuel with
  | zero => intro k st; simp [processLoop]
  | succ n ih =>
      intro k st
      by_cases h : k * R < L * targetSampleRate
      · have hidx : k * R / targetSampleRate < L := idx_lt_len R L k h
        have hk : k < (L * targetSampleRate + R - 1) / R := (lt_ceil_iff R _ k hR).2 h
        simp only [processLoop, if_pos h, if_pos hidx]
        rw [ih, pushSample_total]
        omega
      · have hk : ¬ k < (L * targetSampleRate + R - 1) / R := by
          rw [lt_ceil_iff R _ k hR]; exact h
        simp only [processLoop, if_neg h]
        omega

theorem pushSample_inv (st : RecState) (samp : ℚ)
    (hbuf : st.buffer.length < bufferSize)
    (hchunks : ∀ c ∈ st.chunks, c.length ≤ bufferSize) :
    (pushSample st samp).buffer.length < bufferSize ∧
    ∀ c ∈ (pushSample st samp).chunks, c.length ≤ bufferSize := by
  unfold pushSample
  split
  case isTrue h =>
    refine ⟨by simp [bufferSize], ?_⟩
    intro c hc
    simp only [List.mem_append, List.mem_singleton] at hc
    rcases hc with hc | rfl
    · exact hchunks c hc
    · simp only [List.length_append, List.length_singleton]
      omega
  case isFalse h =>
    refine ⟨?_, hchunks⟩
    simp only [List.length_append, List.length_singleton] at h ⊢
    omega

theorem processLoop_inv (R L : Nat) (get : Nat → ℚ) :
    ∀ fuel k st, st.buffer.length < bufferSize →
      (∀ c ∈ st.chunks, c.length ≤ bufferSize) →
      (processLoop R L get fuel k st).buffer.length < bufferSize ∧
      ∀ c ∈ (processLoop R L get fuel k st).chunks, c.length ≤ bufferSize := by
  intro fuel
  induction fuel with
  | zero => intro k st hbuf hchunks; exact ⟨hbuf, hchunks⟩
  | succ n ih =>
      intro k st hbuf hchunks
      by_cases h : k * R < L * targetSampleRate
      · by_cases hidx : k * R / targetSampleRate < L
        · simp only [processLoop, if_pos h, if_pos hidx]
          obtain ⟨p1, p2⟩ := pushSample_inv st (get (k * R / targetSampleRate)) hbuf hchunks
          exact ih (k + 1) _ p1 p2
        · simp only [processLoop, if_pos h, if_neg hidx]
          exact ih (k + 1) st hbuf hchunks
      · simp only [processLoop, if_neg h]
        exact ⟨hbuf, hchunks⟩

/-- Claim C5 as stated is false: the worklet loop consumes one sample for
every step `k` with `k·(R/T) < L`, which is `⌈L·T/R⌉` samples, not
`⌊L/(R/T)⌋`.  At capture rate 48000 and input length 4 the code consumes 2
samples (indices 0 and 3) while the claimed total is `⌊4/3⌋ = 1`. -/
theorem claim_C5_counterexample :
    totalSamples (process 48000 [0, 0, 0, 0] { buffer := [], chunks := [] }) = 2 ∧
    4 * 16000 / 48000 = 1 ∧
    ¬ totalSamples (process 48000 [0, 0, 0, 0] { buffer := [], chunks := [] }) =
        4 * 16000 / 48000 := by
  decide

/-- Claim C5 (amended): for every capture rate `R ≥ 16000` and input block
of length `L`, the total number of samples the resampler consumes (emitted
chunks plus the partial accumulation buffer) grows by `⌈L·16000/R⌉`
(the ceiling, not the floor, of `L/(R/T)`), and no emitted chunk ever
exceeds the fixed 2048-sample capacity. -/
theorem claim_C5_resample_chunking (R : Nat) (block : List ℚ) (st : RecState)
    (hR : targetSampleRate ≤ R)
    (hbuf : st.buffer.length < bufferSize)
    (hchunks : ∀ c ∈ st.chunks, c.length ≤ bufferSize) :
    totalSamples (process R block st) =
      totalSamples st + (block.length * targetSampleRate + R - 1) / R ∧
    (∀ c ∈ (process R block st).chunks, c.length ≤ bufferSize) ∧
    (process R block st).buffer.length < bufferSize := by
  have hR0 : 0 < R := lt_of_lt_of_le (by norm_num [targetSampleRate]) hR
  have htot := processLoop_total R block.length (fun i => block.getD i 0) hR0
    block.length 0 st
  have hinv := processLoop_inv R block.length (fun i => block.getD i 0)
    block.length 0 st hbuf hchunks
  have hle := ceil_le_len R block.length hR
  refine ⟨?_, hinv.2, hinv.1⟩
  rw [process, htot, Nat.sub_zero, min_eq_right hle]

/-- Witness for C5 (amended) at rate 48000, block length 4: the resampler
consumes ⌈4·16000/48000⌉ = 2 samples. -/
theorem claim_C5_witness :
    totalSamples (process 48000 [0, 0, 0, 0] { buffer := [], chunks := [] }) =
      (4 * 16000 + 48000 - 1) / 48000 := by
  have h := claim_C5_resample_chunking 48000 [0, 0, 0, 0]
    { buffer := [], chunks := [] } (by norm_num [targetSampleRate])
    (by norm_num [bufferSize]) (by simp)
  have h1 := h.1
  simpa [totalSamples, targetSampleRate] using h1

/-! ### PCM round-trip error (C6) -/

theorem jsTrunc_nonneg_bounds (q : ℚ) (h : 0 ≤ q) :
    (jsTrunc q : ℚ) ≤ q ∧ q - 1 < (jsTrunc q : ℚ) := by
  rw [jsTrunc, if_neg (not_lt.2 h)]
  exact ⟨Int.floor_le q, Int.sub_one_lt_floor q⟩

theorem jsTrunc_nonpos_bounds (q : ℚ) (h : q ≤ 0) :
    q ≤ (jsTrunc q : ℚ) ∧ (jsTrunc q : ℚ) < q + 1 := by
  rw [jsTrunc]
  by_cases hq : q < 0
  · rw [if_pos hq]
    push_cast
    have h1 := Int.floor_le (-q)
    have h2 := Int.sub_one_lt_floor (-q)
    constructor <;> linarith
  · rw [if_neg hq]
    have hq0 : q = 0 := le_antisymm h (not_lt.1 hq)
    subst hq0
    simp

theorem clamp_id (x : ℚ) (h1 : -1 ≤ x) (h2 : x ≤ 1) :
    max (-1) (min 1 x) = x := by
  rw [min_eq_right h2, max_eq_right h1]

theorem pcmEncodeRaw_neg (x : ℚ) (h1 : -1 ≤ x) (h2 : x ≤ 1) (hx : x < 0) :
    pcmEncodeRaw x = jsTrunc (x * 32768) := by
  simp only [pcmEncodeRaw, clamp_id x h1 h2, if_pos hx]

theorem pcmEncodeRaw_nonneg (x : ℚ) (h1 : -1 ≤ x) (h2 : x ≤ 1) (hx : ¬ x < 0) :
    pcmEncodeRaw x = jsTrunc (x * 32767) := by
  simp only [pcmEncodeRaw, clamp_id x h1 h2, if_neg hx]

theorem pcmEncodeRaw_bounds (x : ℚ) (h1 : -1 ≤ x) (h2 : x ≤ 1) :
    -32768 ≤ pcmEncodeRaw x ∧ pcmEncodeRaw x ≤ 32767 := by
  by_cases hx : x < 0
  · rw [pcmEncodeRaw_neg x h1 h2 hx]
    obtain ⟨b1, b2⟩ := jsTrunc_nonpos_bounds (x * 32768) (by linarith)
    have lo : (-32768 : ℚ) ≤ (jsTrunc (x * 32768) : ℚ) := by linarith
    have hi : (jsTrunc (x * 32768) : ℚ) < 1 := by linarith
    constructor
    · exact_mod_cast lo
    · have : jsTrunc (x * 32768) < 1 := by exact_mod_cast hi
      omega
  · rw [pcmEncodeRaw_nonneg x h1 h2 hx]
    push_neg at hx
    obtain ⟨b1, b2⟩ := jsTrunc_nonneg_bounds (x * 32767) (by linarith)
    have lo : (-1 : ℚ) < (jsTrunc (x * 32767) : ℚ) := by linarith
    have hi : (jsTrunc (x * 32767) : ℚ) ≤ 32767 := by linarith
    constructor
    · have : (-1 : ℤ) < jsTrunc (x * 32767) := by exact_mod_cast lo
      omega
    · exact_mod_cast hi

theorem int16Wrap_id (v : ℤ) (h1 : -32768 ≤ v) (h2 : v ≤ 32767) :
    int16Wrap v = v := by
  rw [int16Wrap]
  omega

/-- Claim C6 as stated is false: encoding scales non-negative samples by
32767 while decoding divides by 32768, so the round-trip error can exceed
1/32768.  At x = 65535/65536 the encoded value is 32766 and the decoded
value 32766/32768, an error of 3/65536 > 1/32768. -/
theorem claim_C6_counterexample :
    ¬ |((65535 : ℚ) / 65536) -
        pcmDecodeSample (pcmEncodeSample (65535 / 65536))| ≤ 1 / 32768 := by
  have hraw : pcmEncodeRaw ((65535 : ℚ) / 65536) = 32766 := by
    rw [pcmEncodeRaw_nonneg ((65535 : ℚ) / 65536) (by norm_num) (by norm_num)
      (by norm_num), jsTrunc, if_neg (by norm_num)]
    rw [Int.floor_eq_iff]
    constructor <;> norm_num
  simp only [pcmEncodeSample, pcmDecodeSample]
  rw [hraw, int16Wrap_id 32766 (by norm_num) (by norm_num)]
  have hval : ((65535 : ℚ) / 65536) - ((32766 : ℤ) : ℚ) / 32768 = 3 / 65536 := by
    norm_num
  rw [hval, abs_of_pos (by norm_num : (0 : ℚ) < 3 / 65536)]
  norm_num

/-- Claim C6 (amended): the PCM round-trip reproduces every sample in
`[-1, 1]` within 2/32768 (negative samples within 1/32768; non-negative
samples can err by up to just under 2/32768 because encode scales by 32767
but decode divides by 32768), and the extremes +1.0 and -1.0 encode to
32767 and -32768 without overflowing the signed 16-bit range. -/
theorem claim_C6_pcm_roundtrip :
    (∀ x : ℚ, -1 ≤ x → x ≤ 1 →
      |x - pcmDecodeSample (pcmEncodeSample x)| < 2 / 32768) ∧
    pcmEncodeRaw 1 = 32767 ∧ pcmEncodeRaw (-1) = -32768 ∧
    pcmEncodeSample 1 = 32767 ∧ pcmEncodeSample (-1) = -32768 := by
  have h1 : pcmEncodeRaw 1 = 32767 := by
    rw [pcmEncodeRaw_nonneg 1 (by norm_num) le_rfl (by norm_num), jsTrunc,
      if_neg (by norm_num)]
    norm_num
  have h2 : pcmEncodeRaw (-1) = -32768 := by
    rw [pcmEncodeRaw_neg (-1) le_rfl (by norm_num) (by norm_num), jsTrunc,
      if_pos (by norm_num)]
    norm_num
  refine ⟨?_, h1, h2,
    by rw [pcmEncodeSample, h1, int16Wrap_id _ (by norm_num) (by norm_num)],
    by rw [pcmEncodeSample, h2, int16Wrap_id _ (by norm_num) (by norm_num)]⟩
  intro x hx1 hx2
  obtain ⟨lo, hi⟩ := pcmEncodeRaw_bounds x hx1 hx2
  rw [pcmEncodeSample, int16Wrap_id _ lo hi, pcmDecodeSample]
  by_cases hx : x < 0
  · rw [pcmEncodeRaw_neg x hx1 hx2 hx]
    obtain ⟨b1, b2⟩ := jsTrunc_nonpos_bounds (x * 32768) (by linarith)
    rw [abs_lt]
    constructor <;> linarith
  · rw [pcmEncodeRaw_nonneg x hx1 hx2 hx]
    push_neg at hx
    obtain ⟨b1, b2⟩ := jsTrunc_nonneg_bounds (x * 32767) (by linarith)
    rw [abs_lt]
    constructor <;> linarith

/-- Witness for C6 (amended) at x = 1/2. -/
theorem claim_C6_witness :
    |((1 : ℚ) / 2) - pcmDecodeSample (pcmEncodeSample (1 / 2))| < 2 / 32768 :=
  claim_C6_pcm_roundtrip.1 (1 / 2) (by norm_num) (by norm_num)

/-! ### base64 round-trip (C10) -/

theorem charToSextet_sextetToChar (s : Nat) (h : s < 64) :
    charToSextet (sextetToChar s) = s := by
  revert h
  revert s
  decide

theorem sextetToChar_ne_61 (s : Nat) (h : s < 64) : sextetToChar s ≠ 61 := by
  revert h
  revert s
  decide

theorem atob_btoa (b : List Nat) (h : ∀ x ∈ b, x < 256) : atob (btoa b) = b := by
  induction b using btoa.induct with
  | case1 => rfl
  | case2 a =>
      have ha : a < 256 := h a (by simp)
      have d1 : charToSextet (sextetToChar (a / 4)) = a / 4 :=
        charToSextet_sextetToChar _ (by omega)
      have d2 : charToSextet (sextetToChar (a % 4 * 16)) = a % 4 * 16 :=
        charToSextet_sextetToChar _ (by omega)
      have e1 : a / 4 * 4 + a % 4 * 16 / 16 = a := by omega
      simp [btoa, atob, d1, d2]
      omega
  | case3 a b =>
      have ha : a < 256 := h a (by simp)
      have hb : b < 256 := h b (by simp)
      have n1 : ¬ sextetToChar (b % 16 * 4) = 61 := sextetToChar_ne_61 _ (by omega)
      have d1 : charToSextet (sextetToChar (a / 4)) = a / 4 :=
        charToSextet_sextetToChar _ (by omega)
      have d2 : charToSextet (sextetToChar (a % 4 * 16 + b / 16)) =
          a % 4 * 16 + b / 16 := charToSextet_sextetToChar _ (by omega)
      have d3 : charToSextet (sextetToChar (b % 16 * 4)) = b % 16 * 4 :=
        charToSextet_sextetToChar _ (by omega)
      have e1 : a / 4 * 4 + (a % 4 * 16 + b / 16) / 16 = a := by omega
      have e2 : (a % 4 * 16 + b / 16) % 16 * 16 + b % 16 * 4 / 4 = b := by omega
      simp [btoa, atob, n1, d1, d2, d3]
      omega
  | case4 a b c rest ih =>
      have ha : a < 256 := h a (by simp)
      have hb : b < 256 := h b (by simp)
      have hc : c < 256 := h c (by simp)
      have n1 : ¬ sextetToChar (b % 16 * 4 + c / 64) = 61 :=
        sextetToChar_ne_61 _ (by omega)
      have n2 : ¬ sextetToChar (c % 64) = 61 := sextetToChar_ne_61 _ (by omega)
      have d1 : charToSextet (sextetToChar (a / 4)) = a / 4 :=
        charToSextet_sextetToChar _ (by omega)
      have d2 : charToSextet (sextetToChar (a % 4 * 16 + b / 16)) =
          a % 4 * 16 + b / 16 := charToSextet_sextetToChar _ (by omega)
      have d3 : charToSextet (sextetToChar (b % 16 * 4 + c / 64)) =
          b % 16 * 4 + c / 64 := charToSextet_sextetToChar _ (by omega)
      have d4 : charToSextet (sextetToChar (c % 64)) = c % 64 :=
        charToSextet_sextetToChar _ (by omega)
      have e1 : a / 4 * 4 + (a % 4 * 16 + b / 16) / 16 = a := by omega
      have e2 : (a % 4 * 16 + b / 16) % 16 * 16 + (b % 16 * 4 + c / 64) / 4 = b := by
        omega
      have e3 : (b % 16 * 4 + c / 64) % 4 * 64 + c % 64 = c := by omega
      have htl : atob (btoa rest) = rest := ih (fun x hx => h x (by simp [hx]))
      simp [btoa, atob, n1, n2, d1, d2, d3, d4, htl]
      omega

theorem pcmBytes_lt (data : List ℚ) : ∀ x ∈ pcmBytes data, x < 256 := by
  intro x hx
  simp only [pcmBytes, List.mem_flatten, List.mem_map] at hx
  obtain ⟨l, ⟨v, -, rfl⟩, hxl⟩ := hx
  simp only [int16ToLEBytes, List.mem_cons, List.mem_singleton,
    List.not_mem_nil, or_false] at hxl
  rcases hxl with rfl | rfl
  · omega
  · have : (v % 65536).toNat < 65536 := by omega
    omega

theorem pcmBytes_length (data : List ℚ) :
    (pcmBytes data).length = 2 * data.length := by
  induction data with
  | nil => rfl
  | cons a t ih =>
      have hc : pcmBytes (a :: t) =
          int16ToLEBytes (pcmEncodeSample a) ++ pcmBytes t := rfl
      rw [hc, List.length_append, ih, List.length_cons]
      show 2 + 2 * t.length = 2 * (t.length + 1)
      omega

/-- Claim C10: the transport text encoding round-trips — decoding the
encoding of any byte buffer yields the buffer back byte-for-byte; hence
every encoded outbound PCM chunk of n samples decodes back to exactly 2·n
bytes, an even payload length. -/
theorem claim_C10_transport_roundtrip :
    (∀ b : List Nat, (∀ x ∈ b, x < 256) →
      base64ToArrayBuffer (arrayBufferToBase64 b) = b) ∧
    (∀ data : List ℚ,
      base64ToArrayBuffer (createPcmBlob data).data = pcmBytes data ∧
      (base64ToArrayBuffer (createPcmBlob data).data).length = 2 * data.length) := by
  constructor
  · exact fun b hb => atob_btoa b hb
  · intro data
    have h1 : base64ToArrayBuffer (createPcmBlob data).data = pcmBytes data :=
      atob_btoa (pcmBytes data) (pcmBytes_lt data)
    exact ⟨h1, by rw [h1, pcmBytes_length]⟩

/-- Witness for C10 on a concrete buffer and a concrete two-sample chunk. -/
theorem claim_C10_witness :
    base64ToArrayBuffer (arrayBufferToBase64 [0, 255, 128, 7]) = [0, 255, 128, 7] ∧
    (base64ToArrayBuffer (createPcmBlob [1 / 2, -1 / 2]).data).length = 4 := by
  refine ⟨claim_C10_transport_roundtrip.1 [0, 255, 128, 7] (by decide), ?_⟩
  have h := (claim_C10_transport_roundtrip.2 [1 / 2, -1 / 2]).2
  simpa using h

end VoiceText
